import Mathlib

/-!
Verification of the Trip-Split expense tracker against its design notes.

The client code is shallowly embedded: JS numbers carrying money amounts
become rationals, JS objects used as accumulator maps become ordered
association lists (insertion order preserved, as for JS string keys),
and the possibly-NaN result of parseFloat becomes an Option.
-/

/-- An expense row, from the Expense model in src/lib/supabase.ts:
id, payer, category, amount, optional description, occurrence date
(kept as its ISO string). -/
structure Expense where
  id : Nat
  payer : String
  category : String
  amount : ℚ
  description : Option String
  date : String
deriving DecidableEq

/-- JS object update acc[k] = (acc[k] || 0) + v on a string-keyed object,
embedded on an insertion-ordered association list. -/
def upsertAdd : List (String × ℚ) → String → ℚ → List (String × ℚ)
  | [], k, v => [(k, v)]
  | (k₀, v₀) :: rest, k, v =>
    if k₀ = k then (k₀, v₀ + v) :: rest else (k₀, v₀) :: upsertAdd rest k v

/-- The single-pass reduction expenses.reduce((acc, e) => acc[key e] += e.amount)
shared by downloadPDF.ts, ExpenseChart.tsx and Summary.tsx. -/
def groupTotals (key : Expense → String) (es : List Expense) : List (String × ℚ) :=
  es.foldl (fun acc e => upsertAdd acc (key e) e.amount) []

/-- Sum of the values of an association list (what Object.values(...).reduce computes). -/
def sumValues (m : List (String × ℚ)) : ℚ := (m.map Prod.snd).sum

/-- downloadPDF.ts: totalAmount = expenses.reduce((sum, e) => sum + e.amount, 0). -/
def totalAmount (es : List Expense) : ℚ := es.foldl (fun sum e => sum + e.amount) 0

/-- downloadPDF.ts: categoryMap, per-category totals via one reduce pass. -/
def categoryMap (es : List Expense) : List (String × ℚ) :=
  groupTotals (fun e => e.category) es

/-- downloadPDF.ts: payerMap, per-payer totals via one reduce pass. -/
def payerMap (es : List Expense) : List (String × ℚ) :=
  groupTotals (fun e => e.payer) es

/-- ExpenseChart.tsx: categoryTotals, the category chart's reduction. -/
def categoryTotals (es : List Expense) : List (String × ℚ) :=
  groupTotals (fun e => e.category) es

/-- Summary.tsx: totalExpenses = expenses.reduce((sum, exp) => sum + exp.amount, 0). -/
def totalExpenses (es : List Expense) : ℚ := es.foldl (fun sum e => sum + e.amount) 0

/-- Summary.tsx: payerTotals. -/
def payerTotals (es : List Expense) : List (String × ℚ) :=
  groupTotals (fun e => e.payer) es

/-- Summary.tsx: uniquePayers = Object.keys(payerTotals). -/
def uniquePayers (es : List Expense) : List String := (payerTotals es).map Prod.fst

/-- Summary.tsx: numberOfPeople = uniquePayers.length. -/
def numberOfPeople (es : List Expense) : Nat := (uniquePayers es).length

/-- Summary.tsx: fallbackBudget = numberOfPeople > 0 ? totalExpenses / numberOfPeople : 0. -/
def fallbackBudget (es : List Expense) : ℚ :=
  if 0 < numberOfPeople es then totalExpenses es / (numberOfPeople es : ℚ) else 0

/-- Settlement-summary revision (src/unnamed/part_001):
averagePerPerson = numberOfPeople > 0 ? totalExpenses / numberOfPeople : 0. -/
def averagePerPerson (es : List Expense) : ℚ :=
  if 0 < numberOfPeople es then totalExpenses es / (numberOfPeople es : ℚ) else 0

/-- JS read payerTotals[k] on a key known to be present (missing key yields 0,
mirroring the (… || 0) convention used when the maps are built). -/
def objGet (m : List (String × ℚ)) (k : String) : ℚ :=
  ((m.find? (fun kv => kv.1 == k)).map Prod.snd).getD 0

/-- Settlement-summary revision (src/unnamed/part_001): one settlement entry,
owes = averagePerPerson - paid. -/
structure Settlement where
  payer : String
  paid : ℚ
  owes : ℚ
deriving DecidableEq

/-- Settlement-summary revision (src/unnamed/part_001):
settlements = uniquePayers.map(payer => { payer, paid, owes : avg - paid }). -/
def settlements (es : List Expense) : List Settlement :=
  (uniquePayers es).map (fun p =>
    ⟨p, objGet (payerTotals es) p, averagePerPerson es - objGet (payerTotals es) p⟩)

/-- A person_budgets row, as inserted by Summary.tsx. -/
structure BudgetRow where
  payer : String
  budget : ℚ
deriving DecidableEq

/-- Summary.tsx syncMissingBudgets: for each payer of uniquePayers, when the payer is
not among the existing person_budgets rows, insert { payer, budget: fallbackBudget }.
The value is the list of insert calls issued, in loop order. -/
def syncMissingBudgets (existing : List String) (es : List Expense) : List BudgetRow :=
  ((uniquePayers es).filter (fun p => !(existing.contains p))).map
    (fun p => ⟨p, fallbackBudget es⟩)

/-! String helpers mirroring the JS string operations used by the client
(ASCII model: toLowerCase shifts A-Z, trim strips the usual whitespace). -/

/-- JS String.prototype.toLowerCase on one ASCII character. -/
def lowerChar (c : Char) : Char :=
  if 'A' ≤ c ∧ c ≤ 'Z' then Char.ofNat (c.toNat + 32) else c

/-- JS String.prototype.toLowerCase (ASCII model). -/
def lowerStr (s : String) : String := String.mk (s.data.map lowerChar)

/-- Whitespace recognised by the trim model. -/
def isSpaceChar (c : Char) : Bool := c == ' ' || c == '\t' || c == '\n' || c == '\r'

/-- JS String.prototype.trim (ASCII-whitespace model). -/
def trimStr (s : String) : String :=
  String.mk (((s.data.dropWhile isSpaceChar).reverse.dropWhile isSpaceChar).reverse)

/-- Does the second list start with the first one? -/
def listLeadsWith : List Char → List Char → Bool
  | [], _ => true
  | _ :: _, [] => false
  | a :: as, b :: bs => a == b && listLeadsWith as bs

/-- Does the second list contain the first as a contiguous segment? -/
def listContainsSeg (sub : List Char) : List Char → Bool
  | [] => listLeadsWith sub []
  | c :: cs => listLeadsWith sub (c :: cs) || listContainsSeg sub cs

/-- JS s.includes(sub). -/
def jsIncludes (s sub : String) : Bool := listContainsSeg sub.data s.data

/-- JS string comparison a <= b (code-unit lexicographic order). -/
def lexLe : List Char → List Char → Bool
  | [], _ => true
  | _ :: _, [] => false
  | a :: as, b :: bs => if a = b then lexLe as bs else decide (a < b)

/-- JS a <= b on strings. -/
def strLe (a b : String) : Bool := lexLe a.data b.data

/-- ExpenseList.tsx filteredExpenses: search over payer/description
(case-insensitive, trimmed query) plus category filter ("All" passes everything). -/
def filteredExpenses (es : List Expense) (search selectedCategory : String) : List Expense :=
  let q := lowerStr (trimStr search)
  es.filter (fun exp =>
    (q.length == 0 || jsIncludes (lowerStr exp.payer) q
        || jsIncludes (lowerStr (exp.description.getD "")) q)
      && (selectedCategory == "All" || exp.category == selectedCategory))

/-- The local calendar components of a JS Date: getFullYear, getMonth (0-based),
getDate. The browser's ISO-string-to-local-components conversion is kept abstract,
so filters take a localOf : String → DateParts argument. -/
structure DateParts where
  year : Nat
  month0 : Nat
  day : Nat
deriving DecidableEq

/-- JS String(n).padStart(2, "0") on a decimal numeral. -/
def pad2 (n : Nat) : String :=
  if (toString n).length < 2 then "0" ++ toString n else toString n

/-- ExpenseList.tsx toLocalYMD: year-month-day with the month and day padded to
two digits and the month shifted from 0-based to 1-based. -/
def toLocalYMD (d : DateParts) : String :=
  toString d.year ++ "-" ++ pad2 (d.month0 + 1) ++ "-" ++ pad2 d.day

/-- ExpenseList.tsx, custom range download: the expenses handed to
downloadExpensesPDF are those whose local YYYY-MM-DD string lies between
rangeStart and rangeEnd under JS string comparison, both ends inclusive. -/
def rangeDownloadFiltered (localOf : String → DateParts) (es : List Expense)
    (rangeStart rangeEnd : String) : List Expense :=
  es.filter (fun exp =>
    strLe rangeStart (toLocalYMD (localOf exp.date))
      && strLe (toLocalYMD (localOf exp.date)) rangeEnd)

/-! Form validation (ExpenseForm.tsx handleSubmit, ExpenseList saveEdit). -/

/-- Decimal digit run to a natural number. -/
def digitsToNat (l : List Char) : Nat :=
  l.foldl (fun n c => 10 * n + (c.toNat - 48)) 0

/-- JS parseFloat, embedded for the decimal literals the amount field produces:
optional leading whitespace and sign, then digits with an optional fractional
part; the longest numeric prefix is parsed and none stands for NaN.
(Exponent forms and Infinity are outside the modelled fragment.) -/
def parseFloatQ (s : String) : Option ℚ :=
  let l := s.data.dropWhile isSpaceChar
  let sign : ℚ := if l.head? = some '-' then -1 else 1
  let l := if l.head? = some '-' ∨ l.head? = some '+' then l.tail else l
  let intPart := l.takeWhile Char.isDigit
  let rest := l.dropWhile Char.isDigit
  let fracPart := if rest.head? = some '.' then rest.tail.takeWhile Char.isDigit else []
  if intPart = [] ∧ fracPart = [] then none
  else some (sign * ((digitsToNat intPart : ℚ)
    + (digitsToNat fracPart : ℚ) / (10 : ℚ) ^ fracPart.length))

/-- JS comparison x <= c where x may be NaN (none): any comparison with NaN
is false. -/
def jsLeNum (x : Option ℚ) (c : ℚ) : Bool :=
  match x with
  | none => false
  | some q => decide (q ≤ c)

/-- ExpenseForm.tsx handleSubmit reaches the insert exactly when the guard
if (!payer || !amount || parseFloat(amount) <= 0) does not fire. -/
def addSubmitInserts (payer amount : String) : Bool :=
  !(payer == "" || amount == "" || jsLeNum (parseFloatQ amount) 0)

/-- JS falsiness of editForm.payer : string | undefined. -/
def jsFalsyOptStr : Option String → Bool
  | none => true
  | some s => s == ""

/-- JS falsiness of editForm.amount : number | undefined, where the number may
be NaN (inner none): undefined, NaN and 0 are falsy. -/
def jsFalsyOptNum : Option (Option ℚ) → Bool
  | none => true
  | some none => true
  | some (some q) => q == 0

/-- JS comparison editForm.amount <= 0 on a possibly-undefined, possibly-NaN
number. -/
def jsLeOptNum : Option (Option ℚ) → ℚ → Bool
  | some (some q), c => decide (q ≤ c)
  | _, _ => false

/-- ExpenseList saveEdit proceeds to the update exactly when the guard
if (!editForm.payer || !editForm.amount || editForm.amount <= 0) does not fire. -/
def editSaves (payer : Option String) (amount : Option (Option ℚ)) : Bool :=
  !(jsFalsyOptStr payer || jsFalsyOptNum amount || jsLeOptNum amount 0)

/-- Formalisation of claim C3's wording for the add form: the payer is
non-empty and the amount parses to a number that is not less than or equal
to zero. -/
def claimedAddGuard (payer amount : String) : Prop :=
  payer ≠ "" ∧ ∃ q : ℚ, parseFloatQ amount = some q ∧ ¬ q ≤ 0

/-! Error display at the catch sites (claim C5). -/

/-- A JS thrown value as the catch sites discriminate it: an Error-like value
carrying a message, or anything else. -/
inductive JsThrown where
  | jsErr (message : String)
  | nonErr
deriving DecidableEq

/-- App.tsx fetchExpenses catch: err instanceof Error ? err.message :
the fixed fetch fallback. -/
def appFetchErrorText : JsThrown → String
  | .jsErr m => m
  | .nonErr => "Failed to fetch expenses"

/-- ExpenseForm.tsx handleSubmit catch: err.message || the fixed add fallback
(an empty message is falsy and falls back). -/
def addExpenseErrorText : JsThrown → String
  | .jsErr m => if m == "" then "Failed to add expense" else m
  | .nonErr => "Failed to add expense"

/-- ExpenseList saveEdit catch (modal-free revision): err instanceof Error ?
err.message : the fixed update fallback. -/
def updateExpenseErrorText : JsThrown → String
  | .jsErr m => m
  | .nonErr => "Failed to update expense"

/-! Mutation / refetch discipline (claim C4). -/

/-- The update payload saveEdit sends to the expenses table. -/
structure UpdatePayload where
  payer : String
  category : String
  amount : ℚ
  description : String
  date : String
deriving DecidableEq

/-- Applying an update payload to a matching row, as the remote store does. -/
def applyUpdate (p : UpdatePayload) (e : Expense) : Expense :=
  { e with payer := p.payer, category := p.category, amount := p.amount,
           description := some p.description, date := p.date }

/-- Remote table plus the client's expenses state (App.tsx useState). -/
structure SysState where
  server : List Expense
  client : List Expense
deriving DecidableEq

/-- Insert into a list sorted by date descending. -/
def insertByDateDesc (e : Expense) : List Expense → List Expense
  | [] => [e]
  | x :: xs => if strLe x.date e.date then e :: x :: xs else x :: insertByDateDesc e xs

/-- App.tsx fetchExpenses: select * from expenses order by date descending;
the rows the provider returns for the current table. -/
def fetchRows (server : List Expense) : List Expense :=
  server.foldr insertByDateDesc []

/-- One user-driven event, carrying the provider's outcome for the issued call:
the add-form submit (with the row the insert would create), the inline-edit
save, the delete confirmation, or the on-mount fetch. -/
inductive UiEvent where
  | formSubmit (payer amount : String) (row : Expense) (ok : Bool)
  | listSaveEdit (id : Nat) (payerF : Option String) (amountF : Option (Option ℚ))
      (payload : UpdatePayload) (ok : Bool)
  | listDelete (id : Nat) (ok : Bool)
  | mount

/-- One step of the client, from the handlers' control flow:
 - handleSubmit (ExpenseForm.tsx): validation failure or provider error leaves
   everything as is; on success the insert lands and onExpenseAdded refetches;
 - saveEdit / deleteExpense (ExpenseList.tsx): after the awaited call the
   handler refetches via onExpenseChanged without inspecting the result, so a
   refetch happens whether or not the provider applied the change;
 - mount: the initial fetchExpenses. -/
def step (st : SysState) (ev : UiEvent) : SysState :=
  match ev with
  | .formSubmit payer amount row ok =>
    if addSubmitInserts payer amount then
      if ok then
        let server := st.server ++ [row]
        ⟨server, fetchRows server⟩
      else st
    else st
  | .listSaveEdit id payerF amountF payload ok =>
    if editSaves payerF amountF then
      let server :=
        if ok then st.server.map (fun e => if e.id == id then applyUpdate payload e else e)
        else st.server
      ⟨server, fetchRows server⟩
    else st
  | .listDelete id ok =>
    let server := if ok then st.server.filter (fun e => !(e.id == id)) else st.server
    ⟨server, fetchRows server⟩
  | .mount => ⟨st.server, fetchRows st.server⟩

/-- Whether the event's provider call succeeded and actually mutated the table. -/
def mutationApplied : UiEvent → Bool
  | .formSubmit payer amount _ ok => addSubmitInserts payer amount && ok
  | .listSaveEdit _ payerF amountF _ ok => editSaves payerF amountF && ok
  | .listDelete _ ok => ok
  | .mount => false

/-! Per-person budget status (claim C7), from the swipe-card summary revision
(src/unnamed/part_000), whose Budget vs Spent by Person rows derive
remain = budget - spent and display Remaining or Over by accordingly. -/

/-- The status line under a person's budget bar. -/
inductive BudgetVerdict where
  | remainingAmt (q : ℚ)
  | overBy (q : ℚ)
deriving DecidableEq

/-- JS personBudgets[payer] ?? fallbackBudget. -/
def nullishGet (m : List (String × ℚ)) (k : String) (fallback : ℚ) : ℚ :=
  ((m.find? (fun kv => kv.1 == k)).map Prod.snd).getD fallback

/-- The data shown in one Budget vs Spent by Person row. -/
structure PersonBudgetRow where
  payer : String
  budget : ℚ
  spent : ℚ
  verdict : BudgetVerdict
deriving DecidableEq

/-- One row of the Budget vs Spent by Person section (swipe-card revision):
spent = payerTotals[payer], budget = personBudgets[payer] ?? fallbackBudget,
remain = budget - spent, shown as Remaining remain when remain >= 0 and as
Over by |remain| otherwise. -/
def budgetVsSpentRow (personBudgets : List (String × ℚ)) (es : List Expense)
    (p : String) : PersonBudgetRow :=
  let spent := objGet (payerTotals es) p
  let budget := nullishGet personBudgets p (fallbackBudget es)
  let remain := budget - spent
  ⟨p, budget, spent, if 0 ≤ remain then .remainingAmt remain else .overBy |remain|⟩

/-! Concrete sample data for the witnesses. -/

/-- A sample expense. -/
def expA : Expense := ⟨1, "Alice", "Food", 10, none, "2025-01-02T00:00:00.000Z"⟩

/-- A second sample expense, other payer and category. -/
def expB : Expense := ⟨2, "Bob", "Travel", 30, some "taxi", "2025-01-03T00:00:00.000Z"⟩

/-- A sample local-date conversion for the witnesses: every stored date string
falls on 2025-01-02 in the browser's timezone. -/
def sampleLocalOf : String → DateParts := fun _ => ⟨2025, 0, 2⟩

/-! Helper lemmas about the reduction maps. -/

theorem sumValues_upsertAdd (m : List (String × ℚ)) (k : String) (v : ℚ) :
    sumValues (upsertAdd m k v) = sumValues m + v := by
  induction m with
  | nil => simp [upsertAdd, sumValues]
  | cons hd tl ih =>
    obtain ⟨k₀, v₀⟩ := hd
    by_cases h : k₀ = k
    · simp [upsertAdd, h, sumValues]
      ring
    · simp only [upsertAdd, if_neg h, sumValues, List.map_cons, List.sum_cons] at ih ⊢
      rw [ih]
      ring

theorem sumValues_foldl_upsert (key : Expense → String) (es : List Expense)
    (m : List (String × ℚ)) :
    sumValues (es.foldl (fun acc e => upsertAdd acc (key e) e.amount) m)
      = sumValues m + (es.map (fun e => e.amount)).sum := by
  induction es generalizing m with
  | nil => simp
  | cons e tl ih =>
    simp only [List.foldl_cons, List.map_cons, List.sum_cons]
    rw [ih, sumValues_upsertAdd]
    ring

theorem foldl_add_amount (es : List Expense) (a : ℚ) :
    es.foldl (fun sum e => sum + e.amount) a = a + (es.map (fun e => e.amount)).sum := by
  induction es generalizing a with
  | nil => simp
  | cons e tl ih =>
    simp only [List.foldl_cons, List.map_cons, List.sum_cons]
    rw [ih]
    ring

theorem totalExpenses_eq_sum (es : List Expense) :
    totalExpenses es = (es.map (fun e => e.amount)).sum := by
  rw [totalExpenses, foldl_add_amount, zero_add]

theorem sumValues_groupTotals (key : Expense → String) (es : List Expense) :
    sumValues (groupTotals key es) = totalExpenses es := by
  rw [groupTotals, sumValues_foldl_upsert, totalExpenses_eq_sum]
  simp [sumValues]

theorem keys_upsertAdd (m : List (String × ℚ)) (k : String) (v : ℚ) :
    (upsertAdd m k v).map Prod.fst =
      if k ∈ m.map Prod.fst then m.map Prod.fst else m.map Prod.fst ++ [k] := by
  induction m with
  | nil => simp [upsertAdd]
  | cons hd tl ih =>
    obtain ⟨k₀, v₀⟩ := hd
    by_cases h : k₀ = k
    · simp [upsertAdd, h]
    · have hne : k ≠ k₀ := fun hk => h hk.symm
      simp only [upsertAdd, if_neg h, List.map_cons, List.mem_cons, hne, false_or]
      rw [ih]
      by_cases hk : k ∈ tl.map Prod.fst
      · simp [hk]
      · simp [hk]

theorem nodup_keys_upsertAdd (m : List (String × ℚ)) (k : String) (v : ℚ)
    (h : (m.map Prod.fst).Nodup) : ((upsertAdd m k v).map Prod.fst).Nodup := by
  rw [keys_upsertAdd]
  by_cases hk : k ∈ m.map Prod.fst
  · simpa [hk]
  · simpa [hk, List.nodup_append] using h

theorem nodup_keys_foldl_upsert (key : Expense → String) (es : List Expense)
    (m : List (String × ℚ)) (h : (m.map Prod.fst).Nodup) :
    ((es.foldl (fun acc e => upsertAdd acc (key e) e.amount) m).map Prod.fst).Nodup := by
  induction es generalizing m with
  | nil => simpa
  | cons e tl ih => exact ih _ (nodup_keys_upsertAdd _ _ _ h)

theorem nodup_uniquePayers (es : List Expense) : (uniquePayers es).Nodup := by
  exact nodup_keys_foldl_upsert _ es [] (by simp)

theorem upsertAdd_ne_nil (m : List (String × ℚ)) (k : String) (v : ℚ) :
    upsertAdd m k v ≠ [] := by
  cases m with
  | nil => simp [upsertAdd]
  | cons hd tl =>
    obtain ⟨k₀, v₀⟩ := hd
    by_cases h : k₀ = k <;> simp [upsertAdd, h]

theorem foldl_upsert_ne_nil (key : Expense → String) (es : List Expense)
    (m : List (String × ℚ)) (h : m ≠ []) :
    es.foldl (fun acc e => upsertAdd acc (key e) e.amount) m ≠ [] := by
  induction es generalizing m with
  | nil => simpa
  | cons e tl ih => exact ih _ (upsertAdd_ne_nil _ _ _)

theorem payerTotals_ne_nil (e : Expense) (es : List Expense) :
    payerTotals (e :: es) ≠ [] := by
  rw [payerTotals, groupTotals, List.foldl_cons]
  exact foldl_upsert_ne_nil _ es _ (upsertAdd_ne_nil _ _ _)

theorem numberOfPeople_pos (e : Expense) (es : List Expense) :
    0 < numberOfPeople (e :: es) := by
  rw [numberOfPeople, uniquePayers]
  have h := payerTotals_ne_nil e es
  cases hpt : payerTotals (e :: es) with
  | nil => exact absurd hpt h
  | cons hd tl => simp

theorem map_objGet (m : List (String × ℚ)) (h : (m.map Prod.fst).Nodup) :
    (m.map Prod.fst).map (objGet m) = m.map Prod.snd := by
  induction m with
  | nil => simp
  | cons hd tl ih =>
    obtain ⟨k, v⟩ := hd
    simp only [List.map_cons, List.nodup_cons] at h ⊢
    obtain ⟨hk, htl⟩ := h
    have h1 : objGet ((k, v) :: tl) k = v := by simp [objGet]
    have congr1 : ∀ p ∈ tl.map Prod.fst, objGet ((k, v) :: tl) p = objGet tl p := by
      intro p hp
      have hne : (k == p) = false := by
        simp only [beq_eq_false_iff_ne]
        intro hkp
        exact hk (hkp ▸ hp)
      simp [objGet, List.find?, hne]
    rw [h1, List.map_congr_left congr1, ih htl]

theorem sum_map_const_sub {α : Type} (l : List α) (c : ℚ) (g : α → ℚ) :
    (l.map (fun a => c - g a)).sum = (l.length : ℚ) * c - (l.map g).sum := by
  induction l with
  | nil => simp
  | cons a tl ih =>
    simp only [List.map_cons, List.sum_cons, List.length_cons, ih]
    push_cast
    ring

/-- Claim C1: for every expense list, the per-category totals produced by the
PDF export's single-pass reduction sum to the total expense amount, and the
same holds for the category chart's reduction. -/
theorem c1_category_totals_sum_eq_total (es : List Expense) :
    sumValues (categoryMap es) = totalAmount es
    ∧ sumValues (categoryTotals es) = totalAmount es := by
  have h := sumValues_groupTotals (fun e => e.category) es
  have htot : totalAmount es = totalExpenses es := rfl
  exact ⟨by rw [categoryMap, h, htot], by rw [categoryTotals, h, htot]⟩

/-- Claim C8: in the settlement-summary revision, for every non-empty expense
list the owes entries (average per person minus amount paid), taken over all
distinct payers, sum to exactly zero. -/
theorem c8_settlements_sum_zero (es : List Expense) (h : es ≠ []) :
    ((settlements es).map Settlement.owes).sum = 0 := by
  obtain ⟨e, tl, rfl⟩ : ∃ e tl, es = e :: tl := by
    cases es with
    | nil => exact absurd rfl h
    | cons e tl => exact ⟨e, tl, rfl⟩
  set es := e :: tl
  have hpos : 0 < numberOfPeople es := numberOfPeople_pos e tl
  have hne : (numberOfPeople es : ℚ) ≠ 0 :=
    Nat.cast_ne_zero.mpr (Nat.pos_iff_ne_zero.mp hpos)
  have havg : averagePerPerson es = totalExpenses es / (numberOfPeople es : ℚ) := by
    rw [averagePerPerson, if_pos hpos]
  have hmap : (settlements es).map Settlement.owes
      = (uniquePayers es).map (fun p => averagePerPerson es - objGet (payerTotals es) p) := by
    simp [settlements]
  have hvals : (uniquePayers es).map (objGet (payerTotals es))
      = (payerTotals es).map Prod.snd :=
    map_objGet (payerTotals es) (nodup_uniquePayers es)
  have hsum : ((payerTotals es).map Prod.snd).sum = totalExpenses es := by
    have := sumValues_groupTotals (fun x => x.payer) es
    simpa [sumValues, payerTotals] using this
  have hlen : (uniquePayers es).length = numberOfPeople es := rfl
  rw [hmap, sum_map_const_sub, hvals, hsum, hlen, havg]
  rw [mul_div_cancel₀ _ hne]
  ring

/-- Claim C10: the even-split computations are guarded against division by
zero: with no distinct payers both fallbackBudget and averagePerPerson are 0,
and with a positive count they are genuine quotients of the total by the
count. -/
theorem c10_division_guard :
    (∀ es : List Expense, numberOfPeople es = 0 →
        fallbackBudget es = 0 ∧ averagePerPerson es = 0)
    ∧ (∀ es : List Expense, 0 < numberOfPeople es →
        fallbackBudget es * (numberOfPeople es : ℚ) = totalExpenses es
        ∧ averagePerPerson es * (numberOfPeople es : ℚ) = totalExpenses es) := by
  constructor
  · intro es h0
    constructor <;> simp [fallbackBudget, averagePerPerson, h0]
  · intro es hpos
    have hne : (numberOfPeople es : ℚ) ≠ 0 :=
      Nat.cast_ne_zero.mpr (Nat.pos_iff_ne_zero.mp hpos)
    rw [fallbackBudget, averagePerPerson, if_pos hpos]
    exact ⟨div_mul_cancel₀ _ hne, div_mul_cancel₀ _ hne⟩

/-- Witness for C10 at the empty list and a one-expense list. -/
theorem c10_division_guard_witness :
    (fallbackBudget [] = 0 ∧ averagePerPerson [] = 0)
    ∧ (fallbackBudget [expA] * (numberOfPeople [expA] : ℚ) = totalExpenses [expA]
        ∧ averagePerPerson [expA] * (numberOfPeople [expA] : ℚ) = totalExpenses [expA]) :=
  ⟨c10_division_guard.1 [] rfl, c10_division_guard.2 [expA] (by decide)⟩

/-- Witness for C8 on a concrete two-expense list. -/
theorem c8_settlements_sum_zero_witness :
    ((settlements [expA, expB]).map Settlement.owes).sum = 0 :=
  c8_settlements_sum_zero [expA, expB] (by decide)

/-- Claim C2: the budget sync issues inserts exactly for the distinct payers
with no existing person_budgets row, each with the even-split budget
totalExpenses / numberOfPeople, and never for a payer that already has a row. -/
theorem c2_sync_inserts_exactly_missing (existing : List String) (es : List Expense) :
    ((syncMissingBudgets existing es).map BudgetRow.payer).Nodup
    ∧ (∀ p : String,
        p ∈ (syncMissingBudgets existing es).map BudgetRow.payer ↔
          p ∈ uniquePayers es ∧ p ∉ existing)
    ∧ (∀ r ∈ syncMissingBudgets existing es,
        r.budget = totalExpenses es / (numberOfPeople es : ℚ) ∧ r.payer ∉ existing) := by
  have hmap : (syncMissingBudgets existing es).map BudgetRow.payer
      = (uniquePayers es).filter (fun p => !(existing.contains p)) := by
    rw [syncMissingBudgets, List.map_map]
    exact List.map_id _
  refine ⟨?_, ?_, ?_⟩
  · rw [hmap]
    exact (nodup_uniquePayers es).filter _
  · intro p
    rw [hmap]
    simp [List.mem_filter]
  · intro r hr
    rw [syncMissingBudgets] at hr
    obtain ⟨p, hp, rfl⟩ := List.mem_map.mp hr
    have hp' := List.mem_filter.mp hp
    have hpu : p ∈ uniquePayers es := hp'.1
    have hpos : 0 < numberOfPeople es := by
      cases es with
      | nil => simp [uniquePayers, payerTotals, groupTotals] at hpu
      | cons e tl => exact numberOfPeople_pos e tl
    constructor
    · show fallbackBudget es = _
      rw [fallbackBudget, if_pos hpos]
    · show p ∉ existing
      have := hp'.2
      simpa using this

/-- Witness for C2: with Alice already budgeted, exactly the Bob row is
inserted and it carries the even split of the total. -/
theorem c2_sync_inserts_exactly_missing_witness :
    ("Bob" ∈ (syncMissingBudgets ["Alice"] [expA, expB]).map BudgetRow.payer
      ↔ "Bob" ∈ uniquePayers [expA, expB] ∧ "Bob" ∉ ["Alice"])
    ∧ ((⟨"Bob", fallbackBudget [expA, expB]⟩ : BudgetRow).budget
        = totalExpenses [expA, expB] / (numberOfPeople [expA, expB] : ℚ)
      ∧ (⟨"Bob", fallbackBudget [expA, expB]⟩ : BudgetRow).payer ∉ ["Alice"]) :=
  ⟨(c2_sync_inserts_exactly_missing ["Alice"] [expA, expB]).2.1 "Bob",
   (c2_sync_inserts_exactly_missing ["Alice"] [expA, expB]).2.2
     ⟨"Bob", fallbackBudget [expA, expB]⟩
     (by rw [show syncMissingBudgets ["Alice"] [expA, expB]
           = [⟨"Bob", fallbackBudget [expA, expB]⟩] from rfl]
         exact List.mem_singleton.mpr rfl)⟩

/-- Claim C3 counterexample: with payer "A" and amount "abc" the add form
performs the insert although the amount does not parse to a number, because
parseFloat("abc") is NaN and NaN <= 0 is false, so the guard does not fire. -/
theorem c3_claimed_guard_counterexample :
    addSubmitInserts "A" "abc" = true ∧ ¬ claimedAddGuard "A" "abc" := by
  constructor
  · rfl
  · rintro ⟨-, q, hq, -⟩
    rw [show parseFloatQ "abc" = none from rfl] at hq
    exact Option.noConfusion hq

theorem jsLeNum_eq_false_iff (x : Option ℚ) (c : ℚ) :
    jsLeNum x c = false ↔ ∀ q : ℚ, x = some q → c < q := by
  cases x with
  | none => simp [jsLeNum]
  | some q => simp [jsLeNum, not_le]

theorem bool_not_or3 (a b c : Bool) :
    (!(a || b || c)) = true ↔ a = false ∧ b = false ∧ c = false := by
  cases a <;> cases b <;> cases c <;> simp

/-- Claim C3 amended: the add-form submit inserts iff the payer is non-empty,
the amount string is non-empty, and every successful parse of the amount is
positive — so a non-empty amount that does not parse at all (NaN) slips
through the guard; the edit save proceeds iff the payer field is present and
non-empty and the amount field is present, a number, and strictly positive. -/
theorem c3_validation_amended :
    (∀ payer amount : String,
      addSubmitInserts payer amount = true ↔
        payer ≠ "" ∧ amount ≠ ""
          ∧ ∀ q : ℚ, parseFloatQ amount = some q → 0 < q)
    ∧ (∀ (payerF : Option String) (amountF : Option (Option ℚ)),
      editSaves payerF amountF = true ↔
        ∃ (p : String) (q : ℚ),
          payerF = some p ∧ p ≠ "" ∧ amountF = some (some q) ∧ 0 < q) := by
  constructor
  · intro payer amount
    rw [addSubmitInserts, bool_not_or3, beq_eq_false_iff_ne, beq_eq_false_iff_ne,
      jsLeNum_eq_false_iff]
  · intro payerF amountF
    cases payerF with
    | none => simp [editSaves, jsFalsyOptStr]
    | some s =>
      cases amountF with
      | none => simp [editSaves, jsFalsyOptStr, jsFalsyOptNum]
      | some aq =>
        cases aq with
        | none => simp [editSaves, jsFalsyOptStr, jsFalsyOptNum]
        | some q =>
          rw [show editSaves (some s) (some (some q))
              = !((s == "") || (q == 0) || decide (q ≤ 0)) from rfl,
            bool_not_or3, beq_eq_false_iff_ne, beq_eq_false_iff_ne,
            decide_eq_false_iff_not]
          constructor
          · rintro ⟨h1, h2, h3⟩
            exact ⟨s, q, rfl, h1, rfl, not_le.mp h3⟩
          · rintro ⟨p, q', hp, hne, hq, hpos⟩
            obtain rfl : s = p := Option.some.inj hp
            obtain rfl : q = q' := Option.some.inj (Option.some.inj hq)
            exact ⟨hne, ne_of_gt hpos, not_le.mpr hpos⟩

/-- Witness for C3 (amended) at concrete form states. -/
theorem c3_validation_amended_witness :
    (addSubmitInserts "Bob" "5" = true ↔
      "Bob" ≠ "" ∧ "5" ≠ "" ∧ ∀ q : ℚ, parseFloatQ "5" = some q → 0 < q)
    ∧ (editSaves (some "Bob") (some (some 1)) = true ↔
      ∃ (p : String) (q : ℚ),
        (some "Bob") = some p ∧ p ≠ "" ∧ (some (some (1 : ℚ))) = some (some q) ∧ 0 < q) :=
  ⟨c3_validation_amended.1 "Bob" "5",
   c3_validation_amended.2 (some "Bob") (some (some 1))⟩

/-- Claim C5 counterexample: at the add-expense catch site a provider error
carrying the empty message is not displayed verbatim; the fixed fallback text
is shown instead. -/
theorem c5_verbatim_counterexample :
    addExpenseErrorText (JsThrown.jsErr "") = "Failed to add expense"
    ∧ addExpenseErrorText (JsThrown.jsErr "") ≠ "" := by
  exact ⟨rfl, by decide⟩

/-- Claim C5 amended: an Error-like thrown value with a non-empty message is
displayed verbatim at all three catch sites; an empty message (add site) or a
non-Error thrown value yields the fixed site-specific fallback text instead. -/
theorem c5_error_display_amended :
    (∀ m : String, m ≠ "" → addExpenseErrorText (JsThrown.jsErr m) = m)
    ∧ (∀ m : String, appFetchErrorText (JsThrown.jsErr m) = m)
    ∧ (∀ m : String, updateExpenseErrorText (JsThrown.jsErr m) = m)
    ∧ addExpenseErrorText (JsThrown.jsErr "") = "Failed to add expense"
    ∧ appFetchErrorText JsThrown.nonErr = "Failed to fetch expenses"
    ∧ addExpenseErrorText JsThrown.nonErr = "Failed to add expense"
    ∧ updateExpenseErrorText JsThrown.nonErr = "Failed to update expense" := by
  refine ⟨?_, fun m => rfl, fun m => rfl, rfl, rfl, rfl, rfl⟩
  intro m hm
  have : (m == "") = false := beq_eq_false_iff_ne.mpr hm
  simp [addExpenseErrorText, this]

/-- Witness for C5 (amended) at a concrete non-empty message. -/
theorem c5_error_display_amended_witness :
    addExpenseErrorText (JsThrown.jsErr "row level security violation")
      = "row level security violation" :=
  c5_error_display_amended.1 "row level security violation" (by decide)

/-- Claim C4: whenever a mutation of the expenses table was applied, the step
ends with the client list equal to the freshly refetched rows of the new
table; and after any event the client list is either untouched or exactly a
refetch result — never a locally edited list. -/
theorem c4_refetch_after_mutation :
    ∀ (st : SysState) (ev : UiEvent),
      (mutationApplied ev = true → (step st ev).client = fetchRows (step st ev).server)
      ∧ ((step st ev).client = st.client
          ∨ (step st ev).client = fetchRows (step st ev).server) := by
  intro st ev
  cases ev with
  | formSubmit payer amount row ok =>
    cases hg : addSubmitInserts payer amount <;> cases ok <;>
      simp [step, mutationApplied, hg]
  | listSaveEdit id payerF amountF payload ok =>
    cases hg : editSaves payerF amountF <;> cases ok <;>
      simp [step, mutationApplied, hg]
  | listDelete id ok =>
    cases ok <;> simp [step, mutationApplied]
  | mount => simp [step, mutationApplied]

/-- Witness for C4: a successful delete on a concrete state ends in a
refetched client list. -/
theorem c4_refetch_after_mutation_witness :
    (step ⟨[expA, expB], [expA, expB]⟩ (UiEvent.listDelete 1 true)).client
      = fetchRows ((step ⟨[expA, expB], [expA, expB]⟩ (UiEvent.listDelete 1 true)).server) :=
  (c4_refetch_after_mutation ⟨[expA, expB], [expA, expB]⟩ (UiEvent.listDelete 1 true)).1 rfl

/-- Claim C6: the custom range download filters exactly the expenses whose
local YYYY-MM-DD string lies between the chosen start and end strings under
lexicographic comparison, both ends inclusive, keeping the original order. -/
theorem c6_range_filter_exact :
    ∀ (localOf : String → DateParts) (es : List Expense) (a b : String),
      List.Sublist (rangeDownloadFiltered localOf es a b) es
      ∧ ∀ e : Expense, e ∈ rangeDownloadFiltered localOf es a b ↔
          e ∈ es ∧ strLe a (toLocalYMD (localOf e.date)) = true
            ∧ strLe (toLocalYMD (localOf e.date)) b = true := by
  intro localOf es a b
  constructor
  · exact List.filter_sublist _
  · intro e
    simp [rangeDownloadFiltered, List.mem_filter, Bool.and_eq_true, and_assoc]

/-- Witness for C6: a concrete expense inside a concrete range is kept. -/
theorem c6_range_filter_exact_witness :
    expA ∈ rangeDownloadFiltered sampleLocalOf [expA] "2025-01-01" "2025-01-31" :=
  ((c6_range_filter_exact sampleLocalOf [expA] "2025-01-01" "2025-01-31").2 expA).mpr
    ⟨List.mem_singleton_self _, by decide, by decide⟩

theorem lowerStr_length_eq_zero_iff (t : String) : (lowerStr t).length = 0 ↔ t = "" := by
  obtain ⟨d⟩ := t
  show (d.map lowerChar).length = 0 ↔ String.mk d = ""
  rw [List.length_map, List.length_eq_zero]
  constructor
  · rintro rfl
    rfl
  · intro h
    exact congrArg String.data h

/-- Claim C9: the list filter keeps exactly the expenses matching the trimmed
case-insensitive search over payer and description (an empty trimmed search
matches everything) and the selected category ("All" passes everything), in
the original order. -/
theorem c9_filtered_exact :
    ∀ (es : List Expense) (search cat : String),
      List.Sublist (filteredExpenses es search cat) es
      ∧ ∀ e : Expense, e ∈ filteredExpenses es search cat ↔
          e ∈ es
          ∧ (trimStr search = ""
              ∨ jsIncludes (lowerStr e.payer) (lowerStr (trimStr search)) = true
              ∨ jsIncludes (lowerStr (e.description.getD "")) (lowerStr (trimStr search)) = true)
          ∧ (cat = "All" ∨ e.category = cat) := by
  intro es search cat
  constructor
  · exact List.filter_sublist _
  · intro e
    simp only [filteredExpenses, List.mem_filter, Bool.and_eq_true, Bool.or_eq_true,
      beq_iff_eq, lowerStr_length_eq_zero_iff, or_assoc]

/-- Witness for C9: a concrete description search with a category filter keeps
the matching expense. -/
theorem c9_filtered_exact_witness :
    expB ∈ filteredExpenses [expA, expB] " TAXI " "Travel" :=
  ((c9_filtered_exact [expA, expB] " TAXI " "Travel").2 expB).mpr
    ⟨List.mem_cons_of_mem _ (List.mem_singleton_self _),
     Or.inr (Or.inr (by decide)), Or.inr (by decide)⟩

/-- Claim C7: in the swipe-card summary revision, each Budget vs Spent by
Person row derives the person's status from their budget ceiling and spent
total: Remaining (budget - spent) when spent does not exceed the budget, and
Over by (spent - budget) when it does. -/
theorem c7_person_budget_status (pbs : List (String × ℚ)) (es : List Expense) (p : String)
    (_hp : p ∈ uniquePayers es) :
    ((budgetVsSpentRow pbs es p).spent ≤ (budgetVsSpentRow pbs es p).budget →
      (budgetVsSpentRow pbs es p).verdict
        = BudgetVerdict.remainingAmt
            ((budgetVsSpentRow pbs es p).budget - (budgetVsSpentRow pbs es p).spent))
    ∧ ((budgetVsSpentRow pbs es p).budget < (budgetVsSpentRow pbs es p).spent →
      (budgetVsSpentRow pbs es p).verdict
        = BudgetVerdict.overBy
            ((budgetVsSpentRow pbs es p).spent - (budgetVsSpentRow pbs es p).budget)) := by
  set b := nullishGet pbs p (fallbackBudget es) with hb
  set s := objGet (payerTotals es) p with hs
  constructor
  · intro hle
    have h0 : 0 ≤ b - s := sub_nonneg.mpr hle
    show (if 0 ≤ b - s then BudgetVerdict.remainingAmt (b - s)
        else BudgetVerdict.overBy |b - s|) = BudgetVerdict.remainingAmt (b - s)
    rw [if_pos h0]
  · intro hlt
    have h0 : b - s < 0 := sub_neg.mpr hlt
    show (if 0 ≤ b - s then BudgetVerdict.remainingAmt (b - s)
        else BudgetVerdict.overBy |b - s|) = BudgetVerdict.overBy (s - b)
    rw [if_neg (not_le.mpr h0), abs_of_neg h0, neg_sub]

/-- Witness for C7: Bob with a 20 budget and 30 spent is shown Over by 10. -/
theorem c7_person_budget_status_witness :
    (budgetVsSpentRow [("Bob", 20)] [expA, expB] "Bob").verdict
      = BudgetVerdict.overBy ((budgetVsSpentRow [("Bob", 20)] [expA, expB] "Bob").spent
          - (budgetVsSpentRow [("Bob", 20)] [expA, expB] "Bob").budget) :=
  (c7_person_budget_status [("Bob", 20)] [expA, expB] "Bob" (by decide)).2 (by decide)
